import Mathlib

/-!
Verification of the bt2usb BLE→USB HID bridge firmware.

This file is a shallow embedding of the pure logic of the firmware
(HID report codec, notification classifier, HID report-descriptor
parser, advertisement parser, paired-device store, power manager and
the connection coordinator's command handling), together with theorems
settling the specification's claims about that logic.

Conventions of the embedding:
* Rust byte slices (`&[u8]`) become `List Nat`; where a claim needs the
  bytes to actually be bytes, the hypothesis `ByteWF` (every element
  `< 256`) is stated explicitly.
* `u8`/`u16` fields become `Nat`; `i8` fields become `Int`, with the
  `u8 → i8` reinterpretation `byteToI8` and the `i8 as u8` cast
  `i8ToByte` made explicit.
* Serializers that in Rust write into a caller buffer and return a byte
  count are modelled as returning the list of bytes written.
* Fallible operations return `Option`.
-/

namespace Bt2usb

/-- Reinterpret an unsigned byte as a signed `i8` (Rust `data[i] as i8`). -/
def byteToI8 (b : Nat) : Int :=
  if 128 ≤ b then (b : Int) - 256 else (b : Int)

/-- Cast a signed `i8` value to its unsigned byte representation (Rust `v as u8`). -/
def i8ToByte (v : Int) : Nat :=
  (v % 256).toNat

/-- A list of `Nat` that really consists of bytes. -/
def ByteWF (l : List Nat) : Prop := ∀ b ∈ l, b < 256

instance : DecidablePred ByteWF := fun l =>
  inferInstanceAs (Decidable (∀ b ∈ l, b < 256))

/-- `src/hid/keyboard.rs`: boot-protocol keyboard report
(`modifier`, `reserved`, six key codes, modelled as six fields). -/
structure KeyboardReport where
  modifier : Nat
  reserved : Nat
  k0 : Nat
  k1 : Nat
  k2 : Nat
  k3 : Nat
  k4 : Nat
  k5 : Nat
  deriving DecidableEq, Repr

/-- `KeyboardReport::from_ble_bytes`: needs at least 8 bytes, copies them. -/
def KeyboardReport.from_ble_bytes (data : List Nat) : Option KeyboardReport :=
  if data.length < 8 then none
  else some
    { modifier := data.getD 0 0, reserved := data.getD 1 0,
      k0 := data.getD 2 0, k1 := data.getD 3 0, k2 := data.getD 4 0,
      k3 := data.getD 5 0, k4 := data.getD 6 0, k5 := data.getD 7 0 }

/-- `KeyboardReport::serialize`, modelled as the 8 bytes written. -/
def KeyboardReport.serialize (r : KeyboardReport) : List Nat :=
  [r.modifier, r.reserved, r.k0, r.k1, r.k2, r.k3, r.k4, r.k5]

/-- `src/hid/mouse.rs`: boot-protocol mouse report. -/
structure MouseReport where
  buttons : Nat
  x : Int
  y : Int
  wheel : Int
  deriving DecidableEq, Repr

/-- `MouseReport::from_ble_bytes`: accepts 3-byte (wheel = 0) or ≥4-byte payloads. -/
def MouseReport.from_ble_bytes (data : List Nat) : Option MouseReport :=
  if data.length < 3 then none
  else some
    { buttons := data.getD 0 0,
      x := byteToI8 (data.getD 1 0),
      y := byteToI8 (data.getD 2 0),
      wheel := if 4 ≤ data.length then byteToI8 (data.getD 3 0) else 0 }

/-- `MouseReport::serialize`, modelled as the 4 bytes written. -/
def MouseReport.serialize (r : MouseReport) : List Nat :=
  [r.buttons, i8ToByte r.x, i8ToByte r.y, i8ToByte r.wheel]

/-- `src/hid/consumer.rs`: consumer-control report (single u16 usage). -/
structure ConsumerReport where
  usage : Nat
  deriving DecidableEq, Repr

/-- `ConsumerReport::from_ble_bytes`: little-endian u16 from the first 2 bytes. -/
def ConsumerReport.from_ble_bytes (data : List Nat) : Option ConsumerReport :=
  if data.length < 2 then none
  else some { usage := data.getD 0 0 + 256 * data.getD 1 0 }

/-- `ConsumerReport::serialize`: the LE bytes of `usage` (a u16 in the source). -/
def ConsumerReport.serialize (r : ConsumerReport) : List Nat :=
  [r.usage % 256, r.usage / 256 % 256]

/-- `src/hid/mod.rs`: the canonical report union. -/
inductive HidReport where
  | Keyboard (r : KeyboardReport)
  | Mouse (r : MouseReport)
  | Consumer (r : ConsumerReport)
  deriving DecidableEq, Repr

/-- `HidReport::serialize` (src/lib.rs): dispatch to the variant serializer. -/
def HidReport.serialize : HidReport → List Nat
  | .Keyboard r => r.serialize
  | .Mouse r => r.serialize
  | .Consumer r => r.serialize

/-- `src/hid/report_protocol.rs`: kind of report a report ID maps to. -/
inductive ReportKind where
  | Keyboard
  | Mouse
  | Consumer
  deriving DecidableEq, Repr

/-- `src/hid/report_protocol.rs`: usage-page codes. -/
inductive UsagePage where
  | GenericDesktop
  | Keyboard
  | Led
  | Button
  | Consumer
  | Unknown (code : Nat)
  deriving DecidableEq, Repr

/-- `impl From<u16> for UsagePage`. -/
def UsagePage.ofU16 (code : Nat) : UsagePage :=
  if code = 0x01 then .GenericDesktop
  else if code = 0x07 then .Keyboard
  else if code = 0x08 then .Led
  else if code = 0x09 then .Button
  else if code = 0x0C then .Consumer
  else .Unknown code

/-- `src/hid/report_protocol.rs`: Generic Desktop usage codes. -/
inductive DesktopUsage where
  | Pointer
  | Mouse
  | Keyboard
  | X
  | Y
  | Wheel
  | Unknown (code : Nat)
  deriving DecidableEq, Repr

/-- `impl From<u16> for DesktopUsage`. -/
def DesktopUsage.ofU16 (code : Nat) : DesktopUsage :=
  if code = 0x01 then .Pointer
  else if code = 0x02 then .Mouse
  else if code = 0x06 then .Keyboard
  else if code = 0x30 then .X
  else if code = 0x31 then .Y
  else if code = 0x38 then .Wheel
  else .Unknown code

/-- `src/hid/report_protocol.rs`: parsed summary of a HID report descriptor. -/
structure HidDescriptor where
  has_keyboard : Bool
  has_mouse : Bool
  has_consumer : Bool
  keyboard_report_id : Option Nat
  mouse_report_id : Option Nat
  consumer_report_id : Option Nat
  deriving DecidableEq, Repr

/-- `HidDescriptor::has_report_ids`. -/
def HidDescriptor.has_report_ids (d : HidDescriptor) : Bool :=
  d.keyboard_report_id.isSome || d.mouse_report_id.isSome || d.consumer_report_id.isSome

/-- `HidDescriptor::report_kind_for_id`. -/
def HidDescriptor.report_kind_for_id (d : HidDescriptor) (report_id : Nat) : Option ReportKind :=
  if d.keyboard_report_id = some report_id then some .Keyboard
  else if d.mouse_report_id = some report_id then some .Mouse
  else if d.consumer_report_id = some report_id then some .Consumer
  else none

/-- Mutable parser state of `HidDescriptor::parse`
(`usage_page`, `usage`, `report_id`, `report_size`, `report_count`). -/
structure PState where
  usage_page : UsagePage
  usage : Nat
  report_id : Nat
  report_size : Nat
  report_count : Nat
  deriving DecidableEq, Repr

/-- The `UsagePage::Keyboard` arm of the Input main item. -/
def markKeyboard (st : PState) (desc : HidDescriptor) : HidDescriptor :=
  { desc with
    has_keyboard := true,
    keyboard_report_id :=
      if st.report_id ≠ 0 ∧ desc.keyboard_report_id = none then some st.report_id
      else desc.keyboard_report_id }

/-- The `UsagePage::GenericDesktop` arm of the Input main item. -/
def markMouse (st : PState) (desc : HidDescriptor) : HidDescriptor :=
  if DesktopUsage.ofU16 st.usage = .Mouse ∨ DesktopUsage.ofU16 st.usage = .Pointer then
    { desc with
      has_mouse := true,
      mouse_report_id :=
        if st.report_id ≠ 0 ∧ desc.mouse_report_id = none then some st.report_id
        else desc.mouse_report_id }
  else desc

/-- The `UsagePage::Consumer` arm of the Input main item. -/
def markConsumer (st : PState) (desc : HidDescriptor) : HidDescriptor :=
  { desc with
    has_consumer := true,
    consumer_report_id :=
      if st.report_id ≠ 0 ∧ desc.consumer_report_id = none then some st.report_id
      else desc.consumer_report_id }

/-- One item's effect on the parser state and the accumulated descriptor
(the body of the `match item_type` in `HidDescriptor::parse`). -/
def applyItem (tag itemType value : Nat) (st : PState) (desc : HidDescriptor) :
    PState × HidDescriptor :=
  if itemType = 0 then
    -- main item; only tag 0x08 (Input) matters
    if tag = 0x08 then
      (st,
        match st.usage_page with
        | .Keyboard => markKeyboard st desc
        | .GenericDesktop => markMouse st desc
        | .Consumer => markConsumer st desc
        | _ => desc)
    else (st, desc)
  else if itemType = 1 then
    -- global items
    (if tag = 0x00 then { st with usage_page := UsagePage.ofU16 (value % 65536) }
     else if tag = 0x08 then { st with report_id := value % 256 }
     else if tag = 0x07 then { st with report_size := value % 65536 }
     else if tag = 0x09 then { st with report_count := value % 65536 }
     else st, desc)
  else if itemType = 2 then
    -- local items
    (if tag = 0x00 then { st with usage := value % 65536 } else st, desc)
  else (st, desc)

/-- Little-endian value of up to 4 bytes (`u8`/`u16`/`u32::from_le_bytes`). -/
def readLE : List Nat → Nat
  | [] => 0
  | b :: r => b + 256 * readLE r

/-- The item-walking loop of `HidDescriptor::parse`, with an explicit
fuel so the recursion is structural.  A short item is a prefix byte
(tag / type / size) followed by `size ∈ {0,1,2,4}` value bytes,
little-endian; the loop stops when the declared size overruns the
remaining buffer (`size > rest.length` is Rust's `i + 1 + size >
data.len()`), and otherwise advances past the item (`rest.drop size` is
`i += 1 + size`).  Every step consumes at least the prefix byte, so fuel
`data.length` never runs out (`parseLoopF_fuel_irrel`). -/
def parseLoopF : Nat → List Nat → PState → HidDescriptor → HidDescriptor
  | _, [], _, desc => desc
  | 0, _ :: _, _, desc => desc
  | fuel + 1, p :: rest, st, desc =>
    let tag := (p >>> 4) &&& 0x0F
    let itemType := (p >>> 2) &&& 0x03
    let size := if p &&& 0x03 = 3 then 4 else p &&& 0x03
    if size ≤ rest.length then
      let sd := applyItem tag itemType (readLE (rest.take size)) st desc
      parseLoopF fuel (rest.drop size) sd.1 sd.2
    else desc

/-- The item-walking loop at its sufficient fuel. -/
def parseLoop (data : List Nat) (st : PState) (desc : HidDescriptor) : HidDescriptor :=
  parseLoopF data.length data st desc

/-- `HidDescriptor::parse`: walk the items; `None` unless at least one
capability was observed. -/
def HidDescriptor.parse (data : List Nat) : Option HidDescriptor :=
  let d := parseLoop data
    { usage_page := .Unknown 0, usage := 0, report_id := 0, report_size := 0, report_count := 0 }
    { has_keyboard := false, has_mouse := false, has_consumer := false,
      keyboard_report_id := none, mouse_report_id := none, consumer_report_id := none }
  if d.has_keyboard ∨ d.has_mouse ∨ d.has_consumer then some d else none

/-- `src/hid/mod.rs`: `infer_from_length`. -/
def infer_from_length (data : List Nat) : Option HidReport :=
  if data.length = 8 then (KeyboardReport.from_ble_bytes data).map .Keyboard
  else if 3 ≤ data.length ∧ data.length ≤ 4 then (MouseReport.from_ble_bytes data).map .Mouse
  else if data.length = 2 then
    -- `usage` = u16::from_le_bytes([data[0], data[1]])
    if 0 < data.getD 0 0 + 256 * data.getD 1 0 ∧ data.getD 0 0 + 256 * data.getD 1 0 < 0x1000
    then (ConsumerReport.from_ble_bytes data).map .Consumer
    else none
  else none

/-- `src/hid/mod.rs`: `classify_report`. -/
def classify_report (report_id : Nat) (data : List Nat) : Option HidReport :=
  if report_id = 1 then (KeyboardReport.from_ble_bytes data).map .Keyboard
  else if report_id = 2 then (MouseReport.from_ble_bytes data).map .Mouse
  else if report_id = 3 then (ConsumerReport.from_ble_bytes data).map .Consumer
  else infer_from_length data

/-- `src/hid/mod.rs`: `classify_notification`. -/
def classify_notification (data : List Nat) : Option HidReport :=
  (classify_report 0 data).orElse fun _ =>
    if 1 < data.length then classify_report (data.headD 0) data.tail else none

/-- `src/hid/mod.rs`: `parse_by_kind`. -/
def parse_by_kind (kind : ReportKind) (data : List Nat) : Option HidReport :=
  match kind with
  | .Keyboard => (KeyboardReport.from_ble_bytes data).map .Keyboard
  | .Mouse => (MouseReport.from_ble_bytes data).map .Mouse
  | .Consumer => (ConsumerReport.from_ble_bytes data).map .Consumer

/-- `src/hid/mod.rs`: `classify_notification_with_hint`. -/
def classify_notification_with_hint (data : List Nat) (descriptor : Option HidDescriptor) :
    Option HidReport :=
  match descriptor with
  | none => classify_notification data
  | some desc =>
    let viaId : Option HidReport :=
      if desc.has_report_ids ∧ 1 < data.length then
        match desc.report_kind_for_id (data.headD 0) with
        | some kind => parse_by_kind kind data.tail
        | none => none
      else none
    (viaId.orElse fun _ => classify_report 0 data).orElse fun _ => classify_notification data

/-! ## Power manager (src/power.rs) -/

/-- `src/power.rs`: tri-state power mode. -/
inductive PowerState where
  | Active
  | Idle
  | LowPower
  deriving DecidableEq, Repr

/-- `IDLE_TIMEOUT_SECS` in src/power.rs. -/
def IDLE_TIMEOUT_SECS : Nat := 60

/-- `src/power.rs`: the power manager's state.  `embassy_time::Instant` is
modelled as an absolute time in seconds (`Nat`); each operation takes the
current time `now`, and `last_activity.elapsed().as_secs()` becomes
`now - last_activity`. -/
structure PowerManager where
  state : PowerState
  last_activity : Nat
  ble_connected : Bool
  usb_suspended : Bool
  deriving DecidableEq, Repr

/-- `PowerManager::new` at time `now`. -/
def PowerManager.new (now : Nat) : PowerManager :=
  { state := .Active, last_activity := now, ble_connected := false, usb_suspended := false }

/-- `PowerManager::update_state_with_elapsed`. -/
def PowerManager.update_state_with_elapsed (pm : PowerManager) (elapsed_secs : Nat) :
    PowerManager :=
  { pm with
    state :=
      if pm.usb_suspended ∨ (IDLE_TIMEOUT_SECS * 2 < elapsed_secs ∧ ¬pm.ble_connected) then
        .LowPower
      else if IDLE_TIMEOUT_SECS < elapsed_secs then .Idle
      else .Active }

/-- `PowerManager::activity`: stamp `last_activity` and force `Active`. -/
def PowerManager.activity (pm : PowerManager) (now : Nat) : PowerManager :=
  { pm with
    last_activity := now,
    state := if pm.state ≠ .Active then .Active else pm.state }

/-- `PowerManager::set_ble_connected`. -/
def PowerManager.set_ble_connected (pm : PowerManager) (connected : Bool) (now : Nat) :
    PowerManager :=
  let pm2 := { pm with ble_connected := connected }
  if connected then pm2.activity now else pm2

/-- `PowerManager::set_usb_suspended`. -/
def PowerManager.set_usb_suspended (pm : PowerManager) (suspended : Bool) (now : Nat) :
    PowerManager :=
  if pm.usb_suspended = suspended then pm
  else
    let pm2 := { pm with usb_suspended := suspended }
    if suspended then pm2.update_state_with_elapsed (now - pm2.last_activity)
    else pm2.activity now

/-- `PowerManager::tick`. -/
def PowerManager.tick (pm : PowerManager) (now : Nat) : PowerManager :=
  pm.update_state_with_elapsed (now - pm.last_activity)

/-- Modelled from the spec (§4.9 rule set), for comparison with the code:
`if usb_suspended → LowPower; else if inactive > 2·IDLE and not ble_connected
→ LowPower; else if inactive > IDLE → Idle; else Active`, IDLE = 60 s. -/
def specPowerRule (usb_suspended ble_connected : Bool) (inactive : Nat) : PowerState :=
  if usb_suspended then .LowPower
  else if 120 < inactive ∧ ¬ble_connected then .LowPower
  else if 60 < inactive then .Idle
  else .Active

/-! ## Paired-device store (src/storage.rs) -/

/-- BLE address type tag (nrf_softdevice `AddressType`). -/
inductive AddressType where
  | Public
  | RandomStatic
  | RandomPrivateResolvable
  | RandomPrivateNonResolvable
  | Anonymous
  deriving DecidableEq, Repr

/-- BLE device address: 6 opaque bytes plus a type tag. -/
structure Address where
  bytes : List Nat
  addr_type : AddressType
  deriving DecidableEq, Repr

/-- `src/storage.rs`: one paired-device record. -/
structure PairedDevice where
  address : Address
  name : String
  last_rssi : Int
  deriving DecidableEq, Repr

/-- `MAX_PAIRED_DEVICES` in src/config.rs. -/
def MAX_PAIRED_DEVICES : Nat := 4

/-- `src/storage.rs`: in-memory cache of paired devices.  The
`heapless::Vec<PairedDevice, 4>` becomes a `List` whose pushes are guarded
by the capacity, exactly as `heapless::Vec::push` fails when full. -/
structure DeviceStore where
  devices : List PairedDevice
  dirty : Bool
  deriving DecidableEq, Repr

/-- `DeviceStore::new`. -/
def DeviceStore.new : DeviceStore := { devices := [], dirty := false }

/-- `DeviceStore::add`: a matching address updates name/rssi in place;
a miss evicts index 0 when full, then pushes. -/
def DeviceStore.add (s : DeviceStore) (device : PairedDevice) : DeviceStore :=
  match s.devices.findIdx? (fun d => d.address == device.address) with
  | some j =>
    match s.devices.get? j with
    | some existing =>
      { devices :=
          s.devices.set j { existing with name := device.name, last_rssi := device.last_rssi },
        dirty := true }
    | none => s
  | none =>
    let devs := if s.devices.length = MAX_PAIRED_DEVICES then s.devices.drop 1 else s.devices
    { devices := if devs.length < MAX_PAIRED_DEVICES then devs ++ [device] else devs,
      dirty := true }

/-- `DeviceStore::first`: the most recently added entry (`devices.last()`). -/
def DeviceStore.first (s : DeviceStore) : Option PairedDevice :=
  s.devices.getLast?

/-! ## Advertisement parsing (src/ble/adv_parser.rs)

The Rust code walks the buffer with explicit indices.  The embedding keeps
the indices and routes every slice access through `Option`: a `none`
result marks an access outside the buffer, so `isSome` of the result is
exactly "no out-of-bounds access".  Well-founded recursion on
`data.length - i` is the termination argument. -/

/-- Checked subslice `&data[s..e]` (`none` on the bounds Rust would panic on). -/
def sliceC (data : List Nat) (s e : Nat) : Option (List Nat) :=
  if s ≤ e ∧ e ≤ data.length then some ((data.take e).drop s) else none

/-- `chunks_exact(2)` scan for the UUID `0x1812` little-endian (`[0x12, 0x18]`). -/
def hasHidUuidChunk : List Nat → Bool
  | a :: b :: r => if a = 0x12 ∧ b = 0x18 then true else hasHidUuidChunk r
  | _ => false

/-- Loop of `contains_hid_service_uuid`, with checked indexing. -/
def chsLoop (data : List Nat) (i : Nat) : Option Bool :=
  if i < data.length then
    match data.get? i with
    | none => none
    | some len =>
      if len = 0 ∨ data.length ≤ i + len then some false
      else
        match data.get? (i + 1) with
        | none => none
        | some adType =>
          if adType = 0x02 ∨ adType = 0x03 then
            match sliceC data (i + 2) (i + 1 + len) with
            | none => none
            | some uuidData =>
              if hasHidUuidChunk uuidData then some true
              else chsLoop data (i + len + 1)
          else chsLoop data (i + len + 1)
  else some false
termination_by data.length - i
decreasing_by
  all_goals omega

/-- `contains_hid_service_uuid`, checked. -/
def contains_hid_service_uuid (data : List Nat) : Option Bool :=
  chsLoop data 0

/-- The heapless `String<32>` built by the name-extraction push loop:
byte `b` is pushed as `char`, costing 1 byte of capacity below 0x80 and
2 bytes otherwise; the loop stops at the first failing push. -/
def buildName : List Nat → Nat → List Nat
  | [], _ => []
  | b :: r, cap =>
    let cost := if b < 0x80 then 1 else 2
    if cost ≤ cap then b :: buildName r (cap - cost) else []

/-- The literal fallback name "Unknown" as its byte string. -/
def unknownName : List Nat := [85, 110, 107, 110, 111, 119, 110]

/-- Loop of `extract_device_name`, with checked indexing; the result
`String<32>` is modelled as its byte string. -/
def ednLoop (data : List Nat) (i : Nat) : Option (List Nat) :=
  if i < data.length then
    match data.get? i with
    | none => none
    | some len =>
      if len = 0 ∨ data.length ≤ i + len then some unknownName
      else
        match data.get? (i + 1) with
        | none => none
        | some adType =>
          if adType = 0x08 ∨ adType = 0x09 then
            match sliceC data (i + 2) (i + 1 + len) with
            | none => none
            | some nameBytes => some (buildName nameBytes 32)
          else ednLoop data (i + len + 1)
  else some unknownName
termination_by data.length - i
decreasing_by
  all_goals omega

/-- `extract_device_name`, checked. -/
def extract_device_name (data : List Nat) : Option (List Nat) :=
  ednLoop data 0

/-! ## Connection coordinator (src/ble/multi_conn.rs) -/

/-- `MAX_CONNECTIONS` in src/ble/multi_conn.rs. -/
def MAX_CONNECTIONS : Nat := 2

/-- `src/ble/mod.rs`: a device found during scanning. -/
structure DiscoveredDevice where
  address : Address
  name : String
  rssi : Int
  deriving DecidableEq, Repr

/-- `src/ble/scanner.rs`: accumulated scan result. -/
structure ScanResult where
  devices : List DiscoveredDevice
  deriving DecidableEq, Repr

/-- `src/ble/mod.rs`: UI → coordinator commands. -/
inductive BleCommand where
  | StartScan
  | Connect (index : Nat)
  | Disconnect
  deriving DecidableEq, Repr

/-- `src/ble/mod.rs`: UI-surfaced error tags. -/
inductive BleErrorTag where
  | ScanFailed
  | ConnectFailed
  | HidNotFound
  | NotifyFailed
  deriving DecidableEq, Repr

/-- `src/ble/mod.rs`: coordinator → UI events. -/
inductive BleEvent where
  | ScanStarted
  | DeviceFound (device : DiscoveredDevice)
  | ScanComplete
  | Connected (summary : String)
  | Disconnected
  | Error (tag : BleErrorTag)
  deriving DecidableEq, Repr

/-- `src/ble/multi_conn.rs`: coordinator → slot-worker commands. -/
inductive SlotCommand where
  | Connect (device : DiscoveredDevice)
  | Disconnect
  deriving DecidableEq, Repr

/-- `src/ble/multi_conn.rs`: one connection slot. -/
structure ConnectionSlot where
  address : Option Address
  name : String
  connected : Bool
  deriving DecidableEq, Repr

/-- `ConnectionSlot::empty`. -/
def ConnectionSlot.empty : ConnectionSlot :=
  { address := none, name := "", connected := false }

/-- `src/ble/multi_conn.rs`: the two statically allocated slots. -/
structure MultiConnectionManager where
  slot0 : ConnectionSlot
  slot1 : ConnectionSlot
  deriving DecidableEq, Repr

namespace MultiConnectionManager

/-- `MultiConnectionManager::new`. -/
def new : MultiConnectionManager :=
  { slot0 := .empty, slot1 := .empty }

/-- `find_empty_slot`: position of the first non-connected slot. -/
def find_empty_slot (m : MultiConnectionManager) : Option Nat :=
  if ¬m.slot0.connected then some 0
  else if ¬m.slot1.connected then some 1
  else none

/-- `active_count`. -/
def active_count (m : MultiConnectionManager) : Nat :=
  (if m.slot0.connected then 1 else 0) + (if m.slot1.connected then 1 else 0)

/-- `is_connected_address`. -/
def is_connected_address (m : MultiConnectionManager) (address : Address) : Bool :=
  (m.slot0.connected && m.slot0.address == some address) ||
  (m.slot1.connected && m.slot1.address == some address)

/-- `connect_slot`. -/
def connect_slot (m : MultiConnectionManager) (slot : Nat) (device : DiscoveredDevice) :
    MultiConnectionManager :=
  if slot = 0 then
    { m with slot0 := { address := some device.address, name := device.name, connected := true } }
  else if slot = 1 then
    { m with slot1 := { address := some device.address, name := device.name, connected := true } }
  else m

/-- `disconnect_slot`. -/
def disconnect_slot (m : MultiConnectionManager) (slot : Nat) : MultiConnectionManager :=
  if slot = 0 then { m with slot0 := .empty }
  else if slot = 1 then { m with slot1 := .empty }
  else m

end MultiConnectionManager

/-- State owned by the `ble_task` event loop: the slot manager and the
stored result of the last scan. -/
structure CoordState where
  manager : MultiConnectionManager
  last_scan : Option ScanResult
  deriving DecidableEq, Repr

/-- Messages emitted while handling one command: per-slot command-channel
sends and UI events, in send order. -/
structure CoordOutputs where
  slot0_cmds : List SlotCommand
  slot1_cmds : List SlotCommand
  ui_events : List BleEvent
  deriving DecidableEq, Repr

/-- The startup prologue of `ble_task` after the bond store is loaded:
if the store is non-empty, optimistically mark slot 0 connected to the
most recent entry and send it a `Connect` (auto-reconnect). -/
def ble_task_startup (store : DeviceStore) : CoordState × List SlotCommand :=
  let manager := MultiConnectionManager.new
  match store.first with
  | some paired =>
    let auto : DiscoveredDevice :=
      { address := paired.address, name := paired.name, rssi := paired.last_rssi }
    ({ manager := manager.connect_slot 0 auto, last_scan := none },
     [SlotCommand.Connect auto])
  | none => ({ manager := manager, last_scan := none }, [])

/-- UI events the scanner itself sends during `scanner::scan`
(`ScanStarted`, each `DeviceFound`, then `ScanComplete` on success or
`Error(ScanFailed)` on failure). -/
def scanEvents : Option ScanResult → List BleEvent
  | some result => .ScanStarted :: result.devices.map .DeviceFound ++ [.ScanComplete]
  | none => [.ScanStarted, .Error .ScanFailed]

/-- The command arm of the `ble_task` select loop.  `scanOutcome` stands
for the externally determined result of `scanner::scan` (`some` = Ok,
`none` = Err) and is consulted only by `StartScan`. -/
def handle_command (st : CoordState) (cmd : BleCommand) (scanOutcome : Option ScanResult) :
    CoordState × CoordOutputs :=
  match cmd with
  | .StartScan =>
    let disc0 :=
      if MAX_CONNECTIONS ≤ st.manager.active_count ∧ st.manager.slot0.connected then
        [SlotCommand.Disconnect]
      else []
    let disc1 :=
      if MAX_CONNECTIONS ≤ st.manager.active_count ∧ st.manager.slot1.connected then
        [SlotCommand.Disconnect]
      else []
    ({ st with last_scan := scanOutcome },
     { slot0_cmds := disc0, slot1_cmds := disc1, ui_events := scanEvents scanOutcome })
  | .Connect index =>
    match st.last_scan with
    | none =>
      (st, { slot0_cmds := [], slot1_cmds := [], ui_events := [.Error .ConnectFailed] })
    | some scan =>
      match scan.devices.get? index with
      | none =>
        (st, { slot0_cmds := [], slot1_cmds := [], ui_events := [.Error .ConnectFailed] })
      | some device =>
        if st.manager.is_connected_address device.address then
          (st, { slot0_cmds := [], slot1_cmds := [], ui_events := [] })
        else
          match st.manager.find_empty_slot with
          | none =>
            (st, { slot0_cmds := [], slot1_cmds := [], ui_events := [.Error .ConnectFailed] })
          | some slot =>
            ({ st with manager := st.manager.connect_slot slot device },
             if slot = 0 then
               { slot0_cmds := [.Connect device], slot1_cmds := [], ui_events := [] }
             else if slot = 1 then
               { slot0_cmds := [], slot1_cmds := [.Connect device], ui_events := [] }
             else
               { slot0_cmds := [], slot1_cmds := [], ui_events := [] })
  | .Disconnect =>
    (st,
     { slot0_cmds := if st.manager.slot0.connected then [.Disconnect] else [],
       slot1_cmds := if st.manager.slot1.connected then [.Disconnect] else [],
       ui_events := [] })

/-- `ble_task` restricted to its command arm: the startup prologue, then
the commands in arrival order, each paired with its scan outcome; all
channel sends are accumulated in order. -/
def ble_task_run (store : DeviceStore) (cmds : List (BleCommand × Option ScanResult)) :
    CoordState × CoordOutputs :=
  let (st0, auto) := ble_task_startup store
  cmds.foldl
    (fun acc c =>
      let next := handle_command acc.1 c.1 c.2
      (next.1,
       { slot0_cmds := acc.2.slot0_cmds ++ next.2.slot0_cmds,
         slot1_cmds := acc.2.slot1_cmds ++ next.2.slot1_cmds,
         ui_events := acc.2.ui_events ++ next.2.ui_events }))
    (st0, { slot0_cmds := auto, slot1_cmds := [], ui_events := [] })

/-! ## Auxiliary predicates and concrete data used by the theorems -/

/-- Field bounds a report produced by the parsers from byte input satisfies:
`u8` fields are bytes, `i8` fields lie in `[-128, 127]`, `u16` in `[0, 65535]`. -/
def HidReport.WF : HidReport → Prop
  | .Keyboard r =>
    r.modifier < 256 ∧ r.reserved < 256 ∧ r.k0 < 256 ∧ r.k1 < 256 ∧
    r.k2 < 256 ∧ r.k3 < 256 ∧ r.k4 < 256 ∧ r.k5 < 256
  | .Mouse r =>
    r.buttons < 256 ∧ -128 ≤ r.x ∧ r.x ≤ 127 ∧ -128 ≤ r.y ∧ r.y ≤ 127 ∧
    -128 ≤ r.wheel ∧ r.wheel ≤ 127
  | .Consumer r => r.usage < 65536

/-- A consumer report whose usage the length-directed classifier accepts
(`0 < usage < 0x1000`); non-consumer reports are unconstrained. -/
def consumer_usage_ok : HidReport → Prop
  | .Consumer c => 0 < c.usage ∧ c.usage < 0x1000
  | _ => True

instance : DecidablePred consumer_usage_ok := fun r =>
  match r with
  | .Keyboard _ => isTrue trivial
  | .Mouse _ => isTrue trivial
  | .Consumer c => inferInstanceAs (Decidable (0 < c.usage ∧ c.usage < 0x1000))

/-- The data-model invariant of `HidDescriptor`: a set report-id field
implies the matching capability boolean. -/
def descInv (d : HidDescriptor) : Prop :=
  (d.keyboard_report_id ≠ none → d.has_keyboard = true) ∧
  (d.mouse_report_id ≠ none → d.has_mouse = true) ∧
  (d.consumer_report_id ≠ none → d.has_consumer = true)

/-- A concrete public address with leading byte `n`. -/
def mkAddr (n : Nat) : Address :=
  { bytes := [n, 0, 0, 0, 0, 0], addr_type := .Public }

/-- A concrete full (4-entry) device store. -/
def store4 : DeviceStore :=
  { devices :=
      [{ address := mkAddr 1, name := "A", last_rssi := -40 },
       { address := mkAddr 2, name := "B", last_rssi := -41 },
       { address := mkAddr 3, name := "C", last_rssi := -42 },
       { address := mkAddr 4, name := "D", last_rssi := -43 }],
    dirty := false }

/-- A concrete two-entry device store. -/
def store2 : DeviceStore :=
  { devices :=
      [{ address := mkAddr 1, name := "A", last_rssi := -40 },
       { address := mkAddr 2, name := "B", last_rssi := -41 }],
    dirty := false }

/-- A concrete coordinator state whose slot 0 is connected to `mkAddr 1`. -/
def coordStC : CoordState :=
  { manager :=
      { slot0 := { address := some (mkAddr 1), name := "A", connected := true },
        slot1 := .empty },
    last_scan := some { devices := [{ address := mkAddr 1, name := "A", rssi := -40 }] } }

/-- A mouse-only HID report descriptor blob declaring report ID 1
(Usage Page Generic Desktop, Usage Mouse, Report ID 1, Input). -/
def mouseDescBlob : List Nat := [0x05, 0x01, 0x09, 0x02, 0x85, 0x01, 0x81, 0x02]

/-! ## Helper lemmas -/

theorem byteWF_getD {l : List Nat} (h : ByteWF l) : ∀ {i : Nat}, i < l.length → l.getD i 0 < 256 := by
  induction l with
  | nil => intro i hi; simp at hi
  | cons a t ih =>
    intro i hi
    cases i with
    | zero => exact h a (List.mem_cons_self a t)
    | succ n =>
      have ht : ByteWF t := fun b hb => h b (List.mem_cons_of_mem a hb)
      have hn : n < t.length := by simpa using hi
      simpa [List.getD_cons_succ] using ih ht hn

theorem byteWF_tail {l : List Nat} (h : ByteWF l) : ByteWF l.tail :=
  fun b hb => h b (List.mem_of_mem_tail hb)

theorem byteToI8_range {b : Nat} (h : b < 256) :
    -128 ≤ byteToI8 b ∧ byteToI8 b ≤ 127 := by
  unfold byteToI8
  split <;> omega

theorem byteToI8_i8ToByte {v : Int} (h1 : -128 ≤ v) (h2 : v ≤ 127) :
    byteToI8 (i8ToByte v) = v := by
  unfold byteToI8 i8ToByte
  rcases le_or_lt 0 v with hv | hv
  · have hm : v % 256 = v := by omega
    rw [hm]
    split <;> omega
  · have hm : v % 256 = v + 256 := by omega
    rw [hm]
    split <;> omega

theorem kb_from_wf {data : List Nat} {r : KeyboardReport} (h : ByteWF data)
    (hp : KeyboardReport.from_ble_bytes data = some r) : (HidReport.Keyboard r).WF := by
  unfold KeyboardReport.from_ble_bytes at hp
  split at hp
  · exact absurd hp (by simp)
  · rename_i hlen
    injection hp with hp
    subst hp
    push_neg at hlen
    refine ⟨?_, ?_, ?_, ?_, ?_, ?_, ?_, ?_⟩ <;>
      exact byteWF_getD h (by omega)

theorem mouse_from_wf {data : List Nat} {r : MouseReport} (h : ByteWF data)
    (hp : MouseReport.from_ble_bytes data = some r) : (HidReport.Mouse r).WF := by
  unfold MouseReport.from_ble_bytes at hp
  split at hp
  · exact absurd hp (by simp)
  · rename_i hlen
    injection hp with hp
    subst hp
    push_neg at hlen
    have hx := byteToI8_range (byteWF_getD h (show 1 < data.length by omega))
    have hy := byteToI8_range (byteWF_getD h (show 2 < data.length by omega))
    refine ⟨byteWF_getD h (by omega), hx.1, hx.2, hy.1, hy.2, ?_, ?_⟩ <;>
    · simp only
      split
      · rename_i h4
        have hw := byteToI8_range (byteWF_getD h (show 3 < data.length by omega))
        first
        | exact hw.1
        | exact hw.2
      · omega

theorem consumer_from_wf {data : List Nat} {r : ConsumerReport} (h : ByteWF data)
    (hp : ConsumerReport.from_ble_bytes data = some r) : (HidReport.Consumer r).WF := by
  unfold ConsumerReport.from_ble_bytes at hp
  split at hp
  · exact absurd hp (by simp)
  · rename_i hlen
    injection hp with hp
    subst hp
    push_neg at hlen
    have h0 := byteWF_getD h (show 0 < data.length by omega)
    have h1 := byteWF_getD h (show 1 < data.length by omega)
    show data.getD 0 0 + 256 * data.getD 1 0 < 65536
    omega

theorem infer_wf {data : List Nat} {r : HidReport} (h : ByteWF data)
    (hp : infer_from_length data = some r) : r.WF := by
  unfold infer_from_length at hp
  split_ifs at hp
  · obtain ⟨k, hk, rfl⟩ := Option.map_eq_some'.mp hp
    exact kb_from_wf h hk
  · obtain ⟨m, hm, rfl⟩ := Option.map_eq_some'.mp hp
    exact mouse_from_wf h hm
  · obtain ⟨c, hc, rfl⟩ := Option.map_eq_some'.mp hp
    exact consumer_from_wf h hc

theorem classify_report_wf {id : Nat} {data : List Nat} {r : HidReport} (h : ByteWF data)
    (hp : classify_report id data = some r) : r.WF := by
  unfold classify_report at hp
  split_ifs at hp
  · obtain ⟨k, hk, rfl⟩ := Option.map_eq_some'.mp hp
    exact kb_from_wf h hk
  · obtain ⟨m, hm, rfl⟩ := Option.map_eq_some'.mp hp
    exact mouse_from_wf h hm
  · obtain ⟨c, hc, rfl⟩ := Option.map_eq_some'.mp hp
    exact consumer_from_wf h hc
  · exact infer_wf h hp

theorem classify_notification_wf {data : List Nat} {r : HidReport} (h : ByteWF data)
    (hp : classify_notification data = some r) : r.WF := by
  unfold classify_notification at hp
  cases h0 : classify_report 0 data with
  | some x =>
    rw [h0] at hp
    simp only [Option.orElse] at hp
    exact classify_report_wf h (h0.trans hp)
  | none =>
    rw [h0] at hp
    simp only [Option.orElse] at hp
    split_ifs at hp
    exact classify_report_wf (byteWF_tail h) hp

theorem classify_report_zero_serialize {r : HidReport} (hwf : r.WF)
    (hc : consumer_usage_ok r) : classify_report 0 r.serialize = some r := by
  cases r with
  | Keyboard k =>
    simp [classify_report, infer_from_length, HidReport.serialize,
      KeyboardReport.serialize, KeyboardReport.from_ble_bytes, List.getD]
  | Mouse m =>
    obtain ⟨hb, hx1, hx2, hy1, hy2, hw1, hw2⟩ := hwf
    simp [classify_report, infer_from_length, HidReport.serialize,
      MouseReport.serialize, MouseReport.from_ble_bytes, List.getD,
      byteToI8_i8ToByte hx1 hx2, byteToI8_i8ToByte hy1 hy2, byteToI8_i8ToByte hw1 hw2]
  | Consumer c =>
    obtain ⟨hpos, hlt⟩ := hc
    have husage : c.usage % 256 + 256 * (c.usage / 256 % 256) = c.usage := by
      have : c.usage < 65536 := hwf
      omega
    simp only [classify_report, infer_from_length, HidReport.serialize,
      ConsumerReport.serialize, ConsumerReport.from_ble_bytes]
    norm_num [List.getD, husage, hpos, hlt]

theorem with_hint_no_ids (data : List Nat) (d : HidDescriptor)
    (hni : d.has_report_ids = false) :
    classify_notification_with_hint data (some d) = classify_notification data := by
  unfold classify_notification_with_hint
  cases h0 : classify_report 0 data with
  | some x => simp [hni, h0, Option.orElse, classify_notification]
  | none => simp [hni, h0, Option.orElse, classify_notification]

/-! ## Claim theorems -/

/-- C1 (amended): when the descriptor hint is absent or exposes no report
IDs, classification is stable under re-serialization: if a byte string
classifies to report `r` and `r` is not a consumer report with usage 0 or
≥ 0x1000, then classifying the serialized bytes of `r` under the same
descriptor yields `r` again. -/
theorem classify_serialize_roundtrip (data : List Nat) (descriptor : Option HidDescriptor)
    (r : HidReport) (hb : ByteWF data)
    (hids : ∀ d, descriptor = some d → d.has_report_ids = false)
    (hcl : classify_notification_with_hint data descriptor = some r)
    (hcons : consumer_usage_ok r) :
    classify_notification_with_hint r.serialize descriptor = some r := by
  have hnotif : classify_notification data = some r := by
    cases descriptor with
    | none => exact hcl
    | some d =>
      rw [with_hint_no_ids data d (hids d rfl)] at hcl
      exact hcl
  have hwf : r.WF := classify_notification_wf hb hnotif
  have hser : classify_report 0 r.serialize = some r :=
    classify_report_zero_serialize hwf hcons
  cases descriptor with
  | none =>
    show classify_notification r.serialize = some r
    unfold classify_notification
    rw [hser]
    simp [Option.orElse]
  | some d =>
    rw [with_hint_no_ids _ d (hids d rfl)]
    unfold classify_notification
    rw [hser]
    simp [Option.orElse]

/-- C1 witness: the boot-protocol keyboard notification `02 00 04 …`
classifies without a hint, and re-classifying its serialization returns
the same report. -/
theorem classify_serialize_roundtrip_witness :
    classify_notification_with_hint [2, 0, 4, 0, 0, 0, 0, 0] none =
      some (.Keyboard { modifier := 2, reserved := 0, k0 := 4, k1 := 0, k2 := 0,
                        k3 := 0, k4 := 0, k5 := 0 }) ∧
    classify_notification_with_hint
        (HidReport.serialize
          (.Keyboard { modifier := 2, reserved := 0, k0 := 4, k1 := 0, k2 := 0,
                       k3 := 0, k4 := 0, k5 := 0 })) none =
      some (.Keyboard { modifier := 2, reserved := 0, k0 := 4, k1 := 0, k2 := 0,
                        k3 := 0, k4 := 0, k5 := 0 }) := by
  constructor
  · decide
  · exact classify_serialize_roundtrip [2, 0, 4, 0, 0, 0, 0, 0] none _
      (by decide) (fun d h => nomatch h) (by decide) trivial

/-- C1 counterexample: under the parsed descriptor of `mouseDescBlob`
(mouse report ID 1), the well-formed notification `[1, 1, 5, 251, 1]`
classifies to Mouse{buttons 1, x 5, y −5, wheel 1}, yet classifying its
serialized bytes under the same descriptor does not return that report
(the leading `buttons` byte is re-read as a report ID). -/
theorem classify_roundtrip_counterexample :
    classify_notification_with_hint [1, 1, 5, 251, 1] (HidDescriptor.parse mouseDescBlob) =
      some (.Mouse { buttons := 1, x := 5, y := -5, wheel := 1 }) ∧
    classify_notification_with_hint
        (HidReport.serialize (.Mouse { buttons := 1, x := 5, y := -5, wheel := 1 }))
        (HidDescriptor.parse mouseDescBlob) ≠
      some (.Mouse { buttons := 1, x := 5, y := -5, wheel := 1 }) := by
  decide

/-- C4 (amended): a 2-byte notification classifies as a Consumer report
with the little-endian usage exactly when `0 < usage < 0x1000`; in
particular a zero usage is dropped (`none`), not emitted. -/
theorem classify_two_byte_consumer (b0 b1 : Nat) (hb0 : b0 < 256) (hb1 : b1 < 256) :
    classify_notification [b0, b1] =
      if 0 < b0 + 256 * b1 ∧ b0 + 256 * b1 < 0x1000 then
        some (.Consumer { usage := b0 + 256 * b1 })
      else none := by
  by_cases hc : 0 < b0 + 256 * b1 ∧ b0 + 256 * b1 < 0x1000
  · rw [if_pos hc]
    have h0 : classify_report 0 [b0, b1] = some (.Consumer { usage := b0 + 256 * b1 }) := by
      simp [classify_report, infer_from_length, ConsumerReport.from_ble_bytes,
        List.getD, hc.1, hc.2]
    unfold classify_notification
    rw [h0]
    simp [Option.orElse]
  · rw [if_neg hc]
    have h0 : classify_report 0 [b0, b1] = none := by
      simp [classify_report, infer_from_length, List.getD]
      intro h1 h2
      exact absurd ⟨by omega, h2⟩ hc
    have h1 : classify_report b0 [b1] = none := by
      unfold classify_report
      split_ifs
      · simp [KeyboardReport.from_ble_bytes]
      · simp [MouseReport.from_ble_bytes]
      · simp [ConsumerReport.from_ble_bytes]
      · simp [infer_from_length]
    unfold classify_notification
    rw [h0]
    simp only [Option.orElse]
    simp [h1]

/-- C4 witness: the Volume-Up payload `E9 00` (usage 0x00E9) classifies
as a Consumer report. -/
theorem classify_two_byte_consumer_witness :
    classify_notification [0xE9, 0] = some (.Consumer { usage := 0xE9 }) := by
  have h := classify_two_byte_consumer 0xE9 0 (by decide) (by decide)
  simpa using h

/-- C4 counterexample: the 2-byte notification `[0, 0]` (usage 0) is not
classified as a Consumer "no key pressed" report; the classifier drops it. -/
theorem classify_two_byte_zero_counterexample :
    classify_notification [0, 0] ≠ some (.Consumer { usage := 0 }) ∧
    classify_notification [0, 0] = none := by
  decide

/-- C7: mouse parsing accepts every payload of at least 3 bytes — buttons
from byte 0, x and y sign-interpreted from bytes 1 and 2, wheel
sign-interpreted from byte 3 when present and 0 for an exactly-3-byte
payload — and returns `none` for every payload shorter than 3 bytes. -/
theorem mouse_from_ble_bytes_spec :
    (∀ (b0 b1 b2 : Nat) (rest : List Nat),
      MouseReport.from_ble_bytes (b0 :: b1 :: b2 :: rest) =
        some { buttons := b0, x := byteToI8 b1, y := byteToI8 b2,
               wheel := match rest with | [] => 0 | w :: _ => byteToI8 w }) ∧
    (∀ data : List Nat, data.length < 3 → MouseReport.from_ble_bytes data = none) := by
  constructor
  · intro b0 b1 b2 rest
    unfold MouseReport.from_ble_bytes
    cases rest with
    | nil => simp [List.getD]
    | cons w t => simp [List.getD]
  · intro data hlen
    unfold MouseReport.from_ble_bytes
    simp [hlen]

/-- C7 witness: `[1, 10, 251]` parses to buttons 1, x 10, y −5, wheel 0,
and the 2-byte payload `[1, 10]` is rejected. -/
theorem mouse_from_ble_bytes_spec_witness :
    MouseReport.from_ble_bytes [1, 10, 251] =
      some { buttons := 1, x := 10, y := -5, wheel := 0 } ∧
    MouseReport.from_ble_bytes [1, 10] = none := by
  constructor
  · have h := mouse_from_ble_bytes_spec.1 1 10 251 []
    norm_num [byteToI8] at h
    exact h
  · exact mouse_from_ble_bytes_spec.2 [1, 10] (by decide)

/-- C2 (amended): after every `tick`, and after every `set_usb_suspended`
call that changes the flag, the power state equals the spec's rule-set
value (inactivity measured from the possibly-restamped `last_activity`);
in particular `usb_suspended = true` forces `LowPower` after any tick.
`activity` and `set_ble_connected` do not re-evaluate the rule. -/
theorem power_state_matches_rule (pm : PowerManager) (now : Nat) :
    ((pm.tick now).state =
      specPowerRule pm.usb_suspended pm.ble_connected (now - pm.last_activity)) ∧
    (pm.usb_suspended = true → (pm.tick now).state = .LowPower) ∧
    (∀ b : Bool, b ≠ pm.usb_suspended →
      (pm.set_usb_suspended b now).state =
        specPowerRule b pm.ble_connected
          (now - (pm.set_usb_suspended b now).last_activity)) := by
  have hrule : ∀ (usb ble : Bool) (e : Nat),
      (if usb = true ∨ (IDLE_TIMEOUT_SECS * 2 < e ∧ ¬ble = true) then PowerState.LowPower
       else if IDLE_TIMEOUT_SECS < e then PowerState.Idle else PowerState.Active) =
      specPowerRule usb ble e := by
    intro usb ble e
    unfold specPowerRule IDLE_TIMEOUT_SECS
    cases usb <;> cases ble <;> simp
  refine ⟨?_, ?_, ?_⟩
  · unfold PowerManager.tick PowerManager.update_state_with_elapsed
    exact hrule pm.usb_suspended pm.ble_connected (now - pm.last_activity)
  · intro hs
    unfold PowerManager.tick PowerManager.update_state_with_elapsed
    simp [hs]
  · intro b hb
    unfold PowerManager.set_usb_suspended
    rw [if_neg (fun h => hb h.symm)]
    cases b with
    | true =>
      simp only [if_pos rfl]
      unfold PowerManager.update_state_with_elapsed
      exact hrule true pm.ble_connected _
    | false =>
      simp only [Bool.false_eq_true, if_false]
      unfold PowerManager.activity
      unfold specPowerRule
      simp

/-- C2 witness: on a fresh manager, suspending the USB bus at time 0
switches the state to the rule value (LowPower). -/
theorem power_state_matches_rule_witness :
    (true ≠ (PowerManager.new 0).usb_suspended) ∧
    ((PowerManager.new 0).set_usb_suspended true 0).state =
      specPowerRule true (PowerManager.new 0).ble_connected
        (0 - ((PowerManager.new 0).set_usb_suspended true 0).last_activity) :=
  ⟨by decide, (power_state_matches_rule (PowerManager.new 0) 0).2.2 true (by decide)⟩

/-- C2 counterexample: `activity` while the USB bus is suspended leaves
`usb_suspended = true` but sets the state to `Active`, so the state does
not equal the rule-set value (LowPower) after that input. -/
theorem power_activity_overrides_suspend_counterexample :
    (((PowerManager.new 0).set_usb_suspended true 0).activity 5).usb_suspended = true ∧
    (((PowerManager.new 0).set_usb_suspended true 0).activity 5).state ≠
      PowerState.LowPower ∧
    (((PowerManager.new 0).set_usb_suspended true 0).activity 5).state ≠
      specPowerRule true false 0 := by
  decide

/-- C3 (amended): for a paired device `d` whose address matches no stored
entry, `add(d)` on a full store (4 entries) evicts the oldest entry and
appends `d`: the result is `tail ++ [d]`, still has 4 entries, `first()`
returns `d`, and the dirty flag is set. -/
theorem device_store_add_full_fresh (s : DeviceStore) (d : PairedDevice)
    (hfull : s.devices.length = 4)
    (hmiss : ∀ e ∈ s.devices, e.address ≠ d.address) :
    (s.add d).devices = s.devices.tail ++ [d] ∧
    (s.add d).devices.length = 4 ∧
    (s.add d).first = some d ∧
    (s.add d).dirty = true := by
  have hnone : s.devices.findIdx? (fun e => e.address == d.address) = none := by
    rw [List.findIdx?_eq_none_iff]
    intro e he
    simpa using hmiss e he
  have hs : s.add d = { devices := s.devices.tail ++ [d], dirty := true } := by
    unfold DeviceStore.add
    rw [hnone]
    dsimp only
    rw [if_pos (show s.devices.length = MAX_PAIRED_DEVICES from hfull)]
    rw [List.drop_one]
    rw [if_pos (by rw [List.length_tail, hfull]; decide)]
  refine ⟨by rw [hs], ?_, ?_, by rw [hs]⟩
  · rw [hs]
    simp [List.length_tail, hfull]
  · rw [hs]
    unfold DeviceStore.first
    exact List.getLast?_concat _

/-- C3 witness: adding a fresh fifth device to the concrete full store
evicts the oldest and becomes the `first()` (auto-reconnect) entry. -/
theorem device_store_add_full_fresh_witness :
    store4.devices.length = 4 ∧
    (store4.add { address := mkAddr 5, name := "E", last_rssi := -44 }).devices =
      store4.devices.tail ++ [{ address := mkAddr 5, name := "E", last_rssi := -44 }] ∧
    (store4.add { address := mkAddr 5, name := "E", last_rssi := -44 }).first =
      some { address := mkAddr 5, name := "E", last_rssi := -44 } := by
  have h := device_store_add_full_fresh store4
    { address := mkAddr 5, name := "E", last_rssi := -44 } (by decide) (by decide)
  exact ⟨by decide, h.1, h.2.2.1⟩

/-- C3 counterexample: adding a device whose address already matches the
oldest stored entry of a full store updates in place, so `first()` does
not return the added device (no eviction happens). -/
theorem device_store_add_match_counterexample :
    store4.devices.length = 4 ∧
    (store4.add { address := mkAddr 1, name := "X", last_rssi := -50 }).first ≠
      some { address := mkAddr 1, name := "X", last_rssi := -50 } ∧
    (store4.add { address := mkAddr 1, name := "X", last_rssi := -50 }).devices.length = 4 := by
  decide

/-- C9: when `add(d)` finds a stored entry with `d`'s address (first match
at index `j`), it replaces exactly that entry by `d` (same address, new
name and rssi), sets the dirty flag, leaves the length and every other
position unchanged, and — provided stored addresses are pairwise
distinct — `first()` returns `d` iff the match was the last entry. -/
theorem device_store_add_match (s : DeviceStore) (d : PairedDevice) (j : Nat)
    (hj : s.devices.findIdx? (fun e => e.address == d.address) = some j) :
    (s.add d).devices = s.devices.set j d ∧
    (s.add d).devices.length = s.devices.length ∧
    (s.add d).dirty = true ∧
    (∀ k, k ≠ j → (s.add d).devices[k]? = s.devices[k]?) ∧
    (s.devices.Pairwise (fun a b => a.address ≠ b.address) →
      ((s.add d).first = some d ↔ j = s.devices.length - 1)) := by
  obtain ⟨hlt, hpj, hmin⟩ := List.findIdx?_eq_some_iff_getElem.mp hj
  have haddr : (s.devices[j]).address = d.address := by simpa using hpj
  have hset : ({ address := (s.devices[j]).address, name := d.name, last_rssi := d.last_rssi } : PairedDevice) = d := by
    cases d
    simp_all
  have hs : s.add d = { devices := s.devices.set j d, dirty := true } := by
    unfold DeviceStore.add
    rw [hj]
    dsimp only
    have hg : s.devices.get? j = some (s.devices[j]) := by
      rw [List.get?_eq_getElem?]
      exact List.getElem?_eq_getElem hlt
    rw [hg]
    dsimp only
    rw [hset]
  refine ⟨by rw [hs], by rw [hs]; simp, by rw [hs], ?_, ?_⟩
  · intro k hk
    rw [hs]
    dsimp only
    exact List.getElem?_set_ne (Ne.symm hk)
  · intro hpw
    unfold DeviceStore.first
    rw [hs]
    dsimp only
    rw [List.getLast?_eq_getElem?, List.length_set]
    have hpos : 0 < s.devices.length := by omega
    constructor
    · intro hlast
      by_contra hne
      rw [List.getElem?_set_ne hne] at hlast
      have hlast_lt : s.devices.length - 1 < s.devices.length := by omega
      have hd : s.devices[s.devices.length - 1] = d := by
        have := (List.getElem?_eq_some.mp hlast)
        obtain ⟨h, hv⟩ := this
        exact hv
      have hjlt : j < s.devices.length - 1 := by omega
      have := (List.pairwise_iff_getElem.mp hpw) j (s.devices.length - 1) hlt hlast_lt hjlt
      rw [hd, haddr] at this
      exact this rfl
    · intro hj_eq
      rw [← hj_eq]
      exact List.getElem?_set_self hlt

/-- C9 witness: on the concrete two-entry store, adding a device matching
the first (older) entry updates index 0 in place, and `first()` does not
return it because the match was not the most recent entry. -/
theorem device_store_add_match_witness :
    store2.devices.findIdx?
      (fun e => e.address == ({ address := mkAddr 1, name := "X", last_rssi := -10 }
        : PairedDevice).address) = some 0 ∧
    (store2.add { address := mkAddr 1, name := "X", last_rssi := -10 }).devices =
      store2.devices.set 0 { address := mkAddr 1, name := "X", last_rssi := -10 } ∧
    ((store2.add { address := mkAddr 1, name := "X", last_rssi := -10 }).first =
        some { address := mkAddr 1, name := "X", last_rssi := -10 } ↔
      (0 : Nat) = store2.devices.length - 1) := by
  have h := device_store_add_match store2
    { address := mkAddr 1, name := "X", last_rssi := -10 } 0 (by decide)
  exact ⟨by decide, h.1, h.2.2.2.2 (by decide)⟩

/-- C10: handling `Connect(i)` with a stored scan result, a valid index,
and the indexed device's address already connected on some slot is a
complete no-op: no slot-channel sends, no UI events (not even an Error),
and the coordinator state (both slots and the stored scan) is unchanged. -/
theorem coordinator_connect_duplicate_noop (st : CoordState) (i : Nat)
    (scan : ScanResult) (device : DiscoveredDevice) (o : Option ScanResult)
    (hscan : st.last_scan = some scan)
    (hdev : scan.devices.get? i = some device)
    (hconn : st.manager.is_connected_address device.address = true) :
    handle_command st (.Connect i) o =
      (st, { slot0_cmds := [], slot1_cmds := [], ui_events := [] }) := by
  unfold handle_command
  rw [hscan]
  dsimp only
  rw [hdev]
  dsimp only
  rw [if_pos hconn]

/-- C10 witness: on the concrete state whose slot 0 holds `mkAddr 1` and
whose stored scan lists that same device at index 0, `Connect 0` changes
nothing and sends nothing. -/
theorem coordinator_connect_duplicate_noop_witness :
    coordStC.manager.is_connected_address (mkAddr 1) = true ∧
    handle_command coordStC (.Connect 0) none =
      (coordStC, { slot0_cmds := [], slot1_cmds := [], ui_events := [] }) := by
  refine ⟨by decide, ?_⟩
  exact coordinator_connect_duplicate_noop coordStC 0
    { devices := [{ address := mkAddr 1, name := "A", rssi := -40 }] }
    { address := mkAddr 1, name := "A", rssi := -40 } none rfl rfl (by decide)

theorem coordStep_slot0_prefix (cmds : List (BleCommand × Option ScanResult)) :
    ∀ acc : CoordState × CoordOutputs,
      ∃ t, (cmds.foldl
        (fun acc c =>
          let next := handle_command acc.1 c.1 c.2
          (next.1,
           { slot0_cmds := acc.2.slot0_cmds ++ next.2.slot0_cmds,
             slot1_cmds := acc.2.slot1_cmds ++ next.2.slot1_cmds,
             ui_events := acc.2.ui_events ++ next.2.ui_events })) acc).2.slot0_cmds =
        acc.2.slot0_cmds ++ t := by
  induction cmds with
  | nil => intro acc; exact ⟨[], by simp⟩
  | cons c cs ih =>
    intro acc
    rw [List.foldl_cons]
    obtain ⟨t1, ht1⟩ := ih _
    refine ⟨(handle_command acc.1 c.1 c.2).2.slot0_cmds ++ t1, ?_⟩
    rw [ht1]
    simp

/-- C5: whenever the loaded bond store is non-empty, the coordinator's
slot-0 command trace begins with a `Connect` carrying a DiscoveredDevice
whose address, name and rssi are those of `first()` — the most recently
added paired entry — and this send precedes everything produced by UI
commands. -/
theorem ble_startup_autoreconnect (store : DeviceStore)
    (cmds : List (BleCommand × Option ScanResult)) (p : PairedDevice)
    (h : store.first = some p) :
    ∃ t, (ble_task_run store cmds).2.slot0_cmds =
      SlotCommand.Connect { address := p.address, name := p.name, rssi := p.last_rssi } :: t := by
  unfold ble_task_run ble_task_startup
  rw [h]
  dsimp only
  obtain ⟨t, ht⟩ := coordStep_slot0_prefix cmds
    ({ manager := MultiConnectionManager.new.connect_slot 0
        { address := p.address, name := p.name, rssi := p.last_rssi }, last_scan := none },
     { slot0_cmds := [SlotCommand.Connect
        { address := p.address, name := p.name, rssi := p.last_rssi }],
       slot1_cmds := [], ui_events := [] })
  rw [ht]
  exact ⟨t, rfl⟩

/-- C5 witness: on the concrete four-entry store, startup (with no
subsequent commands) sends `Connect` for the most recent entry (address
`mkAddr 4`, name "D", rssi −43) at the head of the slot-0 trace. -/
theorem ble_startup_autoreconnect_witness :
    store4.first = some { address := mkAddr 4, name := "D", last_rssi := -43 } ∧
    (∃ t, (ble_task_run store4 []).2.slot0_cmds =
      SlotCommand.Connect { address := mkAddr 4, name := "D", rssi := -43 } :: t) :=
  ⟨by decide, ble_startup_autoreconnect store4 []
    { address := mkAddr 4, name := "D", last_rssi := -43 } (by decide)⟩

theorem markKeyboard_inv (st : PState) (desc : HidDescriptor) (h : descInv desc) :
    descInv (markKeyboard st desc) :=
  ⟨fun _ => rfl, h.2.1, h.2.2⟩

theorem markMouse_inv (st : PState) (desc : HidDescriptor) (h : descInv desc) :
    descInv (markMouse st desc) := by
  unfold markMouse
  split
  · exact ⟨h.1, fun _ => rfl, h.2.2⟩
  · exact h

theorem markConsumer_inv (st : PState) (desc : HidDescriptor) (h : descInv desc) :
    descInv (markConsumer st desc) :=
  ⟨h.1, h.2.1, fun _ => rfl⟩

theorem applyItem_inv (tag itemType v : Nat) (st : PState) (desc : HidDescriptor)
    (h : descInv desc) : descInv (applyItem tag itemType v st desc).2 := by
  unfold applyItem
  split_ifs <;>
    first
    | exact h
    | (dsimp only
       cases st.usage_page
       · exact markMouse_inv st desc h
       · exact markKeyboard_inv st desc h
       · exact h
       · exact h
       · exact markConsumer_inv st desc h
       · exact h)

theorem parseLoopF_fuel_irrel : ∀ (f1 f2 : Nat) (data : List Nat) (st : PState)
    (desc : HidDescriptor), data.length ≤ f1 → data.length ≤ f2 →
    parseLoopF f1 data st desc = parseLoopF f2 data st desc := by
  intro f1
  induction f1 with
  | zero =>
    intro f2 data st desc h1 h2
    have hdata : data = [] := List.length_eq_zero.mp (Nat.le_zero.mp h1)
    subst hdata
    cases f2 <;> rfl
  | succ n ih =>
    intro f2 data st desc h1 h2
    cases data with
    | nil => cases f2 <;> rfl
    | cons p rest =>
      cases f2 with
      | zero => simp at h2
      | succ m =>
        unfold parseLoopF
        dsimp only
        split_ifs
        all_goals try rfl
        all_goals
          apply ih <;>
            (rw [List.length_drop]
             simp only [List.length_cons] at h1 h2
             omega)

theorem parseLoopF_inv : ∀ (fuel : Nat) (data : List Nat) (st : PState)
    (desc : HidDescriptor), descInv desc → descInv (parseLoopF fuel data st desc) := by
  intro fuel
  induction fuel with
  | zero =>
    intro data st desc h
    cases data <;> exact h
  | succ n ih =>
    intro data st desc h
    cases data with
    | nil => exact h
    | cons p rest =>
      unfold parseLoopF
      dsimp only
      split_ifs
      all_goals first
        | exact ih _ _ _ (applyItem_inv _ _ _ _ _ h)
        | exact h

/-- C6: every descriptor returned by `HidDescriptor.parse` satisfies the
data-model invariant — each set report-id field implies the matching
capability boolean — and at least one of the three capability booleans is
true (so an input observing none of the capabilities yields `None`). -/
theorem hid_descriptor_parse_invariant (data : List Nat) (d : HidDescriptor)
    (h : HidDescriptor.parse data = some d) :
    (d.keyboard_report_id ≠ none → d.has_keyboard = true) ∧
    (d.mouse_report_id ≠ none → d.has_mouse = true) ∧
    (d.consumer_report_id ≠ none → d.has_consumer = true) ∧
    (d.has_keyboard = true ∨ d.has_mouse = true ∨ d.has_consumer = true) := by
  unfold HidDescriptor.parse parseLoop at h
  dsimp only at h
  split_ifs at h with hcap
  · injection h with h
    subst h
    have hinv := parseLoopF_inv data.length data
      { usage_page := .Unknown 0, usage := 0, report_id := 0, report_size := 0,
        report_count := 0 }
      { has_keyboard := false, has_mouse := false, has_consumer := false,
        keyboard_report_id := none, mouse_report_id := none, consumer_report_id := none }
      (by exact ⟨fun hh => absurd rfl hh, fun hh => absurd rfl hh, fun hh => absurd rfl hh⟩)
    exact ⟨hinv.1, hinv.2.1, hinv.2.2, hcap⟩

/-- C6 witness: the mouse-only descriptor blob parses to a descriptor with
`mouse_report_id = some 1`, and the theorem's invariant holds of it. -/
theorem hid_descriptor_parse_invariant_witness :
    HidDescriptor.parse mouseDescBlob =
      some { has_keyboard := false, has_mouse := true, has_consumer := false,
             keyboard_report_id := none, mouse_report_id := some 1,
             consumer_report_id := none } ∧
    ({ has_keyboard := false, has_mouse := true, has_consumer := false,
       keyboard_report_id := none, mouse_report_id := some 1,
       consumer_report_id := none } : HidDescriptor).mouse_report_id ≠ none ∧
    ({ has_keyboard := false, has_mouse := true, has_consumer := false,
       keyboard_report_id := none, mouse_report_id := some 1,
       consumer_report_id := none } : HidDescriptor).has_mouse = true := by
  have h := hid_descriptor_parse_invariant mouseDescBlob
    { has_keyboard := false, has_mouse := true, has_consumer := false,
      keyboard_report_id := none, mouse_report_id := some 1, consumer_report_id := none }
    (by decide)
  exact ⟨by decide, by decide, h.2.1 (by decide)⟩

theorem chsLoop_isSome_aux (n : Nat) : ∀ (data : List Nat) (i : Nat),
    data.length - i ≤ n → (chsLoop data i).isSome = true := by
  induction n with
  | zero =>
    intro data i hn
    rw [chsLoop]
    rw [if_neg (by omega)]
    rfl
  | succ n ih =>
    intro data i hn
    rw [chsLoop]
    by_cases hi : i < data.length
    · rw [if_pos hi]
      have hg : data.get? i = some data[i] := by
        rw [List.get?_eq_getElem?]
        exact List.getElem?_eq_getElem hi
      rw [hg]
      dsimp only
      by_cases hb : data[i] = 0 ∨ data.length ≤ i + data[i]
      · rw [if_pos hb]
        rfl
      · rw [if_neg hb]
        push_neg at hb
        have hg1 : data.get? (i + 1) = some data[i + 1] := by
          rw [List.get?_eq_getElem?]
          exact List.getElem?_eq_getElem (by omega)
        rw [hg1]
        dsimp only
        have hsl : sliceC data (i + 2) (i + 1 + data[i]) =
            some ((data.take (i + 1 + data[i])).drop (i + 2)) := by
          unfold sliceC
          rw [if_pos ⟨by omega, by omega⟩]
        by_cases ht : data[i + 1] = 2 ∨ data[i + 1] = 3
        · rw [if_pos ht, hsl]
          dsimp only
          by_cases hu : hasHidUuidChunk ((data.take (i + 1 + data[i])).drop (i + 2)) = true
          · rw [if_pos hu]
            rfl
          · rw [if_neg hu]
            exact ih data (i + data[i] + 1) (by omega)
        · rw [if_neg ht]
          exact ih data (i + data[i] + 1) (by omega)
    · rw [if_neg hi]
      rfl

theorem ednLoop_isSome_aux (n : Nat) : ∀ (data : List Nat) (i : Nat),
    data.length - i ≤ n → (ednLoop data i).isSome = true := by
  induction n with
  | zero =>
    intro data i hn
    rw [ednLoop]
    rw [if_neg (by omega)]
    rfl
  | succ n ih =>
    intro data i hn
    rw [ednLoop]
    by_cases hi : i < data.length
    · rw [if_pos hi]
      have hg : data.get? i = some data[i] := by
        rw [List.get?_eq_getElem?]
        exact List.getElem?_eq_getElem hi
      rw [hg]
      dsimp only
      by_cases hb : data[i] = 0 ∨ data.length ≤ i + data[i]
      · rw [if_pos hb]
        rfl
      · rw [if_neg hb]
        push_neg at hb
        have hg1 : data.get? (i + 1) = some data[i + 1] := by
          rw [List.get?_eq_getElem?]
          exact List.getElem?_eq_getElem (by omega)
        rw [hg1]
        dsimp only
        have hsl : sliceC data (i + 2) (i + 1 + data[i]) =
            some ((data.take (i + 1 + data[i])).drop (i + 2)) := by
          unfold sliceC
          rw [if_pos ⟨by omega, by omega⟩]
        by_cases ht : data[i + 1] = 8 ∨ data[i + 1] = 9
        · rw [if_pos ht, hsl]
          rfl
        · rw [if_neg ht]
          exact ih data (i + data[i] + 1) (by omega)
    · rw [if_neg hi]
      rfl

/-- C8: for every input, the checked advertisement parsers return a value
(`isSome`) — i.e. they terminate and never access an index outside the
buffer — and on reaching a record whose length byte is 0 they halt at
once with the loop's fallback result (no further indexing). -/
theorem adv_parse_no_oob (data : List Nat) (i : Nat) :
    (contains_hid_service_uuid data).isSome = true ∧
    (extract_device_name data).isSome = true ∧
    (i < data.length → data.get? i = some 0 →
      chsLoop data i = some false ∧ ednLoop data i = some unknownName) := by
  refine ⟨chsLoop_isSome_aux data.length data 0 (by omega),
    ednLoop_isSome_aux data.length data 0 (by omega), ?_⟩
  intro hi h0
  constructor
  · rw [chsLoop]
    rw [if_pos hi, h0]
    dsimp only
    rw [if_pos (Or.inl rfl)]
  · rw [ednLoop]
    rw [if_pos hi, h0]
    dsimp only
    rw [if_pos (Or.inl rfl)]

/-- C8 witness: an advertisement consisting of a single zero-length record
makes both parsers halt immediately with their fallback results. -/
theorem adv_parse_no_oob_witness :
    (0 < ([0] : List Nat).length) ∧
    chsLoop [0] 0 = some false ∧ ednLoop [0] 0 = some unknownName := by
  have h := (adv_parse_no_oob [0] 0).2.2 (by decide) (by decide)
  exact ⟨by decide, h.1, h.2⟩

end Bt2usb
